import Mathlib

/-
Verification of the clinicops_server security / identifier-generation cluster.

Strings are modelled as `List Char` (Python `str` values compare and slice by
code point, which `List Char` mirrors).  Machine integers do not overflow in
the modelled code paths, so numbers are `Nat`.  Timestamps are `Nat` minutes.
-/

/-- Char list of a string literal, for readability of concrete values. -/
def lc (s : String) : List Char := s.data

/-- Decimal digit to its ASCII character, as Python's `str` rendering uses. -/
def digitChar (d : Nat) : Char := Char.ofNat (48 + d)

/-- Fuel-driven decimal rendering; `fuel` bounds recursion depth so the
definition is structural and evaluates inside `decide`. -/
def natCharsFuel : Nat → Nat → List Char
  | 0, _ => []
  | fuel + 1, n =>
    if n < 10 then [digitChar n]
    else natCharsFuel fuel (n / 10) ++ [digitChar (n % 10)]

/-- Decimal rendering of a natural number (Python `str(n)` / `f'{n}'`). -/
def natChars (n : Nat) : List Char := natCharsFuel (n + 1) n

/-- Python format `{n:0wd}`: decimal digits left-padded with zeros to width w. -/
def padZero (w : Nat) (n : Nat) : List Char :=
  List.replicate (w - (natChars n).length) '0' ++ natChars n

/-- Python `s.split('-')`: split on every dash, keeping empty parts. -/
def splitOnDash : List Char → List (List Char)
  | [] => [[]]
  | c :: rest =>
    if c = '-' then [] :: splitOnDash rest
    else
      match splitOnDash rest with
      | [] => [[c]]
      | h :: t => (c :: h) :: t

/-- Python `s.split('-')[-1]`: the text after the last dash. -/
def afterLastDash (l : List Char) : List Char := (splitOnDash l).getLastD []

/-- Python `int(s)` on a digit string (the generators only parse the digit
suffixes of previously issued identifiers). -/
def toNatDigits (l : List Char) : Nat :=
  l.foldl (fun a c => a * 10 + (c.toNat - 48)) 0

/-- Python string `<` : lexicographic comparison by code point. -/
def lcLt : List Char → List Char → Bool
  | [], [] => false
  | [], _ :: _ => true
  | _ :: _, [] => false
  | a :: as, b :: bs =>
    if a.toNat < b.toNat then true
    else if b.toNat < a.toNat then false
    else lcLt as bs

/-- `.order_by('-field').first()` : the maximal string of the list, if any. -/
def qsDescFirst (l : List (List Char)) : Option (List Char) :=
  l.foldl
    (fun acc s =>
      match acc with
      | none => some s
      | some m => if lcLt m s then some s else some m)
    none

/-- `.order_by('-field').last()` : the minimal string of the list, if any
(the last row of a descending ordering is the smallest). -/
def qsDescLast (l : List (List Char)) : Option (List Char) :=
  l.foldl
    (fun acc s =>
      match acc with
      | none => some s
      | some m => if lcLt s m then some s else some m)
    none

/-- A local calendar date, as produced by `timezone.localdate()`. -/
structure Date where
  year : Nat
  month : Nat
  day : Nat
deriving DecidableEq

/-- `strftime('%Y%m%d')`: the date as eight digits YYYYMMDD. -/
def fmtYmd (d : Date) : List Char :=
  padZero 4 d.year ++ padZero 2 d.month ++ padZero 2 d.day

/-- `strftime('Y%m%d')` as written in `generate_visit_id`: the `%` before `Y`
is missing in the source, so the output is a literal `Y` followed by MMDD. -/
def fmtVisitDate (d : Date) : List Char :=
  'Y' :: (padZero 2 d.month ++ padZero 2 d.day)

/-- A row of the Patient table, reduced to the columns the generator reads. -/
structure PatientRec where
  clinic_id : Nat
  patient_id : List Char
deriving DecidableEq

/-- A row of the Visit table, reduced to the columns the generator reads. -/
structure VisitRec where
  clinic_id : Nat
  visit_id : List Char
deriving DecidableEq

/-- A row of the Payment table, reduced to the columns the generator reads. -/
structure PaymentRec where
  clinic_id : Nat
  payment_id : List Char
deriving DecidableEq

/-- A row of the Invoice table; the source filters on `invoice_id` but orders
and reads `invoice_number`, so both columns are kept. -/
structure InvoiceRec where
  clinic_id : Nat
  invoice_id : List Char
  invoice_number : List Char
deriving DecidableEq

/-- `generate_patient_id` from `apps/core/id_generators.py`.  The query
`.filter(clinic_id=..., patient_id__startswith=prefix).order_by('-patient_id')
.value_list(...).first()` is modelled as the maximal matching id (the source
spells `value_list` for `values_list`; the intended query is modelled).  The
return statement is `f'{prefix}{seq}:04d'`: the format spec sits outside the
braces, so `:04d` is literal text and `seq` is rendered unpadded. -/
def generate_patient_id (today : Date) (db : List PatientRec) (clinic_id : Nat) : List Char :=
  let pfx := lc "PAT-" ++ fmtYmd today ++ lc "-"
  let last := qsDescFirst
    ((db.filter (fun r => r.clinic_id == clinic_id && pfx.isPrefixOf r.patient_id)).map
      (fun r => r.patient_id))
  let seq := match last with
    | some s => toNatDigits (afterLastDash s) + 1
    | none => 1
  pfx ++ natChars seq ++ lc ":04d"

/-- The `VIS-` prefix `generate_visit_id` computes for a given day (with its
malformed `Y%m%d` date). -/
def visPfx (today : Date) : List Char := lc "VIS-" ++ fmtVisitDate today ++ lc "-"

/-- The queryset read of `generate_visit_id`:
`.order_by("-visit_id").value_list(...).last()`, i.e. the minimal matching id
(`last()` of a descending ordering). -/
def visitQueryLast (today : Date) (db : List VisitRec) (clinic_id : Nat) : Option (List Char) :=
  qsDescLast
    ((db.filter (fun r => r.clinic_id == clinic_id && (visPfx today).isPrefixOf r.visit_id)).map
      (fun r => r.visit_id))

/-- `generate_visit_id` from `apps/core/id_generators.py`, with the queryset
read modelled as the intended `values_list` query. -/
def generate_visit_id (today : Date) (db : List VisitRec) (clinic_id : Nat) : List Char :=
  let last := visitQueryLast today db clinic_id
  let seq := match last with
    | some s => toNatDigits (afterLastDash s) + 1
    | none => 1
  visPfx today ++ padZero 4 seq

/-- The queryset read of `generate_visit_id` as actually written: the source
spells `.value_list`, a misspelling of `values_list`, and a Django queryset
has no such attribute, so in the real program this expression raises
`AttributeError` on every call, whatever the table holds.  Fallible code is
modelled with `Except`; the error value is the exception name. -/
def visitQueryLastActual (_today : Date) (_db : List VisitRec) (_clinic_id : Nat) :
    Except (List Char) (Option (List Char)) :=
  Except.error (lc "AttributeError")

/-- `generate_visit_id` as actually written: the queryset read raises before
any sequence number is computed or any identifier string is built. -/
def generate_visit_id_actual (today : Date) (db : List VisitRec) (clinic_id : Nat) :
    Except (List Char) (List Char) :=
  match visitQueryLastActual today db clinic_id with
  | Except.error e => Except.error e
  | Except.ok last =>
    let seq := match last with
      | some s => toNatDigits (afterLastDash s) + 1
      | none => 1
    Except.ok (visPfx today ++ padZero 4 seq)

/-- `generate_invoice_number` from `apps/core/id_generators.py`: filters on
`invoice_id__startswith`, orders by `-invoice_number` and takes `.last()`
(the minimal `invoice_number` among the matches). -/
def generate_invoice_number (today : Date) (db : List InvoiceRec) (clinic_id : Nat) : List Char :=
  let pfx := lc "INV-" ++ fmtYmd today ++ lc "-"
  let last := qsDescLast
    ((db.filter (fun r => r.clinic_id == clinic_id && pfx.isPrefixOf r.invoice_id)).map
      (fun r => r.invoice_number))
  let seq := match last with
    | some s => toNatDigits (afterLastDash s) + 1
    | none => 1
  pfx ++ padZero 4 seq

/-- `generate_payment_id` from `apps/core/id_generators.py`
(`timezone.localtime().strftime('%Y%m%d')` yields the same YYYYMMDD digits as
`localdate()`). -/
def generate_payment_id (today : Date) (db : List PaymentRec) (clinic_id : Nat) : List Char :=
  let pfx := lc "PAY-" ++ fmtYmd today ++ lc "-"
  let last := qsDescFirst
    ((db.filter (fun r => r.clinic_id == clinic_id && pfx.isPrefixOf r.payment_id)).map
      (fun r => r.payment_id))
  let seq := match last with
    | some s => toNatDigits (afterLastDash s) + 1
    | none => 1
  pfx ++ padZero 4 seq

/-- The identifier shape the specification asserts, for a given fixed entity
tag and day: `{PREFIX}-{YYYYMMDD}-{seq:04d}`, i.e. the tag, a dash, the date
as eight digits, a dash, then exactly four decimal digits. -/
def claimIdFormat (tag : List Char) (d : Date) (out : List Char) : Prop :=
  out.take (tag.length + 10) = tag ++ ('-' :: fmtYmd d) ++ ['-']
  ∧ (out.drop (tag.length + 10)).length = 4
  ∧ ∀ c ∈ out.drop (tag.length + 10), c.isDigit = true

instance (tag : List Char) (d : Date) (out : List Char) :
    Decidable (claimIdFormat tag d out) := by
  unfold claimIdFormat; infer_instance

/-- A sample day used for concrete evaluations. -/
def D0 : Date := ⟨2026, 10, 12⟩

/-- Two concurrent `generate_visit_id` requests under the interleaving in
which both transactions read the table before either inserts its new row
(read A, read B, write A, write B).  Each generator call is the pure
scan-then-increment computation of the source; the writes append the issued
identifiers.  Returns both identifiers and the final table. -/
def raceVisitRun (today : Date) (db : List VisitRec) (clinic_id : Nat) :
    (List Char × List Char) × List VisitRec :=
  let ida := generate_visit_id today db clinic_id
  let idb := generate_visit_id today db clinic_id
  ((ida, idb), db ++ [⟨clinic_id, ida⟩, ⟨clinic_id, idb⟩])

/-- The visit table holding today's maximal 4-digit sequence, 9999. -/
def dbVisit9999 : List VisitRec := [⟨1, lc "VIS-Y1012-9999"⟩]

/-- The security-relevant columns of `apps/accounts/models.py` `User`.
The remaining columns (phone, names, role, ...) are not read or written by
the lockout / reset-code methods and are omitted.  Timestamps are minutes. -/
structure User where
  failed_login_attempts : Nat
  locked_until : Option Nat
  reset_code : List Char
  reset_code_expires : Option Nat
deriving DecidableEq

/-- `User.lock_account(duration_minutes=15)`. -/
def lock_account (now : Nat) (u : User) (duration_minutes : Nat := 15) : User :=
  { u with locked_until := some (now + duration_minutes) }

/-- `User.is_locked`: `self.locked_until and self.locked_until > timezone.now()`
(a datetime value is always truthy, so the first conjunct is just the
`None` test). -/
def is_locked (now : Nat) (u : User) : Bool :=
  match u.locked_until with
  | some t => decide (now < t)
  | none => false

/-- `User.reset_failed_attempts`. -/
def reset_failed_attempts (u : User) : User :=
  { u with failed_login_attempts := 0, locked_until := none }

/-- `User.increment_failed_attempts`: add one to the counter and, whenever the
new counter is at least 5, call `lock_account()`. -/
def increment_failed_attempts (now : Nat) (u : User) : User :=
  let u' := { u with failed_login_attempts := u.failed_login_attempts + 1 }
  if u'.failed_login_attempts ≥ 5 then lock_account now u' else u'

/-- `User.set_reset_code`. -/
def set_reset_code (now : Nat) (code : List Char) (u : User) : User :=
  { u with reset_code := code, reset_code_expires := some (now + 15) }

/-- `User.clear_reset_code`: code set to empty, expiry set to `None`. -/
def clear_reset_code (u : User) : User :=
  { u with reset_code := [], reset_code_expires := none }

/-- `User.verify_reset_code`: false when no code or no expiry is stored
(`not self.reset_code or not self.reset_code_expires` — the empty string and
`None` are falsy), false when the expiry is strictly past, else exact string
equality with the stored code. -/
def verify_reset_code (now : Nat) (code : List Char) (u : User) : Bool :=
  if u.reset_code = [] then false
  else
    match u.reset_code_expires with
    | none => false
    | some e => if e < now then false else u.reset_code == code

/-- An account one failure away from lockout. -/
def uFour : User := ⟨4, none, [], none⟩

/-- An account already locked: five recorded failures, locked until minute 20. -/
def uLocked : User := ⟨5, some 20, [], none⟩

/-- An account holding reset code 483921 expiring at minute 30. -/
def uCode : User := ⟨0, none, lc "483921", some 30⟩

/-- Characters `re.sub(r'[^\d+]', '', phone)` keeps: digits and every plus
sign (not only a leading one). -/
def keepChar (c : Char) : Bool := c.isDigit || c = '+'

/-- The cleaning step of `normalize_phone`. -/
def cleanedOf (s : List Char) : List Char := s.filter keepChar

/-- `if cleaned.startswith('+'): cleaned = cleaned[1:]`. -/
def stripPlus (l : List Char) : List Char :=
  if l.head? = some '+' then l.tail else l

/-- `normalize_phone` from `apps/core/utils.py`, branch for branch. -/
def normalize_phone (phone : List Char) : List Char :=
  if phone = [] then []
  else
    let cleaned := stripPlus (cleanedOf phone)
    if (lc "237").isPrefixOf cleaned && cleaned.length == 12 then '+' :: cleaned
    else if cleaned.length == 9 && (lc "6").isPrefixOf cleaned then lc "+237" ++ cleaned
    else if cleaned.length == 12 && (lc "237").isPrefixOf cleaned then '+' :: cleaned
    else if (lc "+").isPrefixOf phone then phone else '+' :: cleaned

/-- Modelled from the spec: the stripping of §4.1 rules 1-2 — keep digits and
a leading `+` only, then drop that `+`; the result is the digit subsequence
of the input.  This is the claim-side reading of "after stripping", used to
state the claim of §4.1 as written (the source regex instead keeps every
`+`). -/
def specStripped (s : List Char) : List Char := s.filter Char.isDigit

/-- The per-input statement of the phone-normalizer claim as written: empty
input gives empty output; an input that after stripping is 9 digits starting
with 6 gets `+237` prepended; an input that is 12 digits starting with 237
gets `+` prepended; any other input is returned best-effort, `+` plus the
stripped digits when the original lacked a leading `+`, else unchanged. -/
def c7ClaimAt (s : List Char) : Prop :=
  if s = [] then normalize_phone s = []
  else if (specStripped s).length = 9 ∧ (specStripped s).head? = some '6' then
    normalize_phone s = lc "+237" ++ specStripped s
  else if (specStripped s).length = 12 ∧ (lc "237").isPrefixOf (specStripped s) = true then
    normalize_phone s = '+' :: specStripped s
  else
    normalize_phone s =
      if (lc "+").isPrefixOf s = true then s else '+' :: specStripped s

/-- `random.randint(a, b)`: both endpoints inclusive; `r` is the draw of the
underlying pseudo-random source. -/
def randint (a b r : Nat) : Nat := a + r % (b - a + 1)

/-- `generate_reset_code` from `apps/core/utils.py`:
`str(random.randint(100000, 999999))`. -/
def generate_reset_code (r : Nat) : List Char :=
  natChars (randint 100000 999999 r)

/-- JSON-like response bodies, as much of them as the exception handler
inspects or builds. -/
inductive JData where
  | obj : List (String × JData) → JData
  | str : String → JData
  | arr : List JData → JData

/-- A DRF response: an HTTP status code and a body. -/
structure Response where
  status : Nat
  data : JData

/-- The exception attributes `custom_exception_handler` reads with `getattr`. -/
structure Exc where
  detail : Option String
  wait : Option Nat

/-- `isinstance(error_data, dict) and 'error' in error_data`. -/
def dictHasErrorKey : JData → Bool
  | JData.obj entries => entries.any (fun kv => kv.1 == "error")
  | _ => false

/-- `isinstance(response, ValidationError)` as written in the source: the
tested object is the DRF `Response` returned by `exception_handler`, never an
exception instance, so the test is false for every response. -/
def responseIsValidationError (_ : Response) : Bool := false

/-- The not-found envelope the 404 branch installs. -/
def notFoundData : JData :=
  JData.obj [("error", JData.str "not_found"), ("message", JData.str "Ressource introuvable")]

/-- `custom_exception_handler` from `apps/core/exceptions.py`.  `None` from
the default handler is returned as is.  The 400 reshaping branch is guarded
by `isinstance(response, ValidationError)` and is therefore dead code; the
403 branch builds a local `response_data` dict but never assigns
`response.data`, so a 403 also passes through unchanged. -/
def custom_exception_handler (exc : Exc) (response : Option Response) : Option Response :=
  match response with
  | none => none
  | some r =>
    if responseIsValidationError r then
      if dictHasErrorKey r.data then some r
      else
        some { r with data := (JData.obj
          [("error", JData.str "validation_error"),
           ("message", JData.str "Erreur de validation"),
           ("details", r.data)]) }
    else if r.status = 403 then
      some r
    else if r.status = 404 then
      some { r with data := notFoundData }
    else if r.status = 429 then
      let msg := match exc.wait with
        | some w =>
          if w = 0 then "Trop de requetes."
          else "Trop de requetes." ++ " Reessayer dans " ++ toString w ++ " secondes"
        | none => "Trop de requetes."
      some { r with data := (JData.obj
        [("error", JData.str "throttled"), ("message", JData.str msg)]) }
    else if r.status = 405 then
      some { r with data := (JData.obj
        [("error", JData.str "method_not_allowed"),
         ("message", JData.str "Methode non autorisee")]) }
    else some r

/-- A generic 404 response. -/
def r404 : Response := ⟨404, JData.str "detail"⟩

/-- A 400 response whose body already carries the error envelope shape. -/
def r400 : Response := ⟨400, JData.obj [("error", JData.str "validation_error"),
  ("message", JData.str "Erreur de validation")]⟩

/-- An exception carrying no extra attributes. -/
def exc0 : Exc := ⟨none, none⟩

/-- C1: the claim asserts every generator returns `{PREFIX}-{YYYYMMDD}-{seq:04d}`
with the sequence zero-padded to 4 digits, starting at 1 on an empty day.  The
code disagrees: `generate_patient_id` returns `f'{prefix}{seq}:04d'` (the
format spec is outside the braces, so the suffix is the unpadded number
followed by the literal text `:04d`), and `generate_visit_id` formats the date
with `strftime('Y%m%d')`, producing a literal `Y` plus MMDD instead of
YYYYMMDD.  Evaluated on an empty table for 2026-10-12, clinic 1. -/
theorem id_format_code_bug :
    generate_patient_id D0 [] 1 = lc "PAT-20261012-1:04d"
    ∧ generate_visit_id D0 [] 1 = lc "VIS-Y1012-0001"
    ∧ ¬ claimIdFormat (lc "PAT") D0 (generate_patient_id D0 [] 1)
    ∧ ¬ claimIdFormat (lc "VIS") D0 (generate_visit_id D0 [] 1) := by
  decide

/-- C2: the claim asserts no interleaving of two simultaneous requests for the
same clinic, kind and day can yield the same identifier twice.  The generator
is an unguarded read-max-then-increment: under the interleaving in which both
requests read the table before either writes, both compute sequence 1 and the
final table holds the same visit identifier twice. -/
theorem concurrent_calls_collide :
    (raceVisitRun D0 [] 1).1.1 = (raceVisitRun D0 [] 1).1.2
    ∧ (raceVisitRun D0 [] 1).1.1 = lc "VIS-Y1012-0001"
    ∧ (raceVisitRun D0 [] 1).2 = [⟨1, lc "VIS-Y1012-0001"⟩, ⟨1, lc "VIS-Y1012-0001"⟩] := by
  decide

/-- C3: with today's maximum sequence at 9999 the claim demands an explicit
capacity error rather than a returned identifier.  The code contains no
capacity check at all, so the mandated failure does not exist: the generator
as actually written raises `AttributeError` at the misspelled `.value_list`
call before any sequence is computed — on every input, and not a capacity
error — while under the intended `values_list` query it raises nothing and
returns an identifier whose sequence part has 5 digits (Python `{seq:04d}`
pads to a minimum width and never truncates).  Evaluated at the table holding
`VIS-Y1012-9999`. -/
theorem capacity_error_code_bug :
    generate_visit_id_actual D0 dbVisit9999 1 = Except.error (lc "AttributeError")
    ∧ visitQueryLast D0 dbVisit9999 1 = some (lc "VIS-Y1012-9999")
    ∧ toNatDigits (afterLastDash (lc "VIS-Y1012-9999")) = 9999
    ∧ generate_visit_id D0 dbVisit9999 1 = lc "VIS-Y1012-10000"
    ∧ (afterLastDash (generate_visit_id D0 dbVisit9999 1)).length = 5 := by
  refine ⟨rfl, ?_, ?_, ?_, ?_⟩ <;> decide

/-- C4: a recorded failure increments the counter by exactly one; when the
counter reaches 5 the account is locked until now + 15 minutes; and on every
read the account counts as locked exactly when a lock-until timestamp is set
and lies strictly in the future. -/
theorem lockout_behavior (u : User) (t now : Nat) :
    (increment_failed_attempts t u).failed_login_attempts = u.failed_login_attempts + 1
    ∧ (u.failed_login_attempts + 1 = 5 →
        (increment_failed_attempts t u).locked_until = some (t + 15)
        ∧ ∀ s, is_locked s (increment_failed_attempts t u) = true ↔ s < t + 15)
    ∧ (is_locked now u = true ↔ ∃ e, u.locked_until = some e ∧ now < e) := by
  refine ⟨?_, ?_, ?_⟩
  · rw [increment_failed_attempts]
    split <;> rfl
  · intro h5
    rw [increment_failed_attempts]
    simp only [h5]
    rw [if_pos (by omega)]
    refine ⟨rfl, ?_⟩
    intro s
    simp [is_locked, lock_account]
  · rw [is_locked]
    cases hu : u.locked_until with
    | none => simp
    | some e => simp [hu]

/-- Witness for C4 at the account with four prior failures. -/
theorem lockout_behavior_witness :
    (increment_failed_attempts 100 uFour).failed_login_attempts = uFour.failed_login_attempts + 1
    ∧ (uFour.failed_login_attempts + 1 = 5 →
        (increment_failed_attempts 100 uFour).locked_until = some 115
        ∧ ∀ s, is_locked s (increment_failed_attempts 100 uFour) = true ↔ s < 115)
    ∧ (is_locked 50 uFour = true ↔ ∃ e, uFour.locked_until = some e ∧ 50 < e) :=
  lockout_behavior uFour 100 50

/-- C5 counterexample: an account with five recorded failures, locked until
minute 20 and still locked at minute 10, receives a 6th failure at minute 10;
the stored lock-until changes (to minute 25), contradicting the claim that it
is left unchanged. -/
theorem sixth_failure_counterexample :
    uLocked.failed_login_attempts = 5
    ∧ is_locked 10 uLocked = true
    ∧ (increment_failed_attempts 10 uLocked).locked_until ≠ uLocked.locked_until
    ∧ (increment_failed_attempts 10 uLocked).locked_until = some 25 := by
  decide

/-- C5 amended: a 6th or later failure re-runs `lock_account`, so the
lock-until timestamp is reset to now + 15 minutes, extending the window. -/
theorem sixth_failure_resets_window (u : User) (now : Nat)
    (h : 5 ≤ u.failed_login_attempts) :
    (increment_failed_attempts now u).locked_until = some (now + 15) := by
  rw [increment_failed_attempts]
  rw [if_pos (by simp; omega)]
  rfl

/-- Witness for the amended C5 theorem at the locked account. -/
theorem sixth_failure_resets_window_witness :
    5 ≤ uLocked.failed_login_attempts
    ∧ (increment_failed_attempts 10 uLocked).locked_until = some 25 :=
  ⟨by decide, sixth_failure_resets_window uLocked 10 (by decide)⟩

/-- C6: reset-code verification succeeds exactly when a non-empty code with an
expiry is stored, the expiry has not passed, and the candidate equals the
stored code; and after the code is cleared every verification fails. -/
theorem verify_reset_code_spec (u : User) (now : Nat) (code : List Char) :
    (verify_reset_code now code u = true ↔
      u.reset_code ≠ [] ∧ ∃ e, u.reset_code_expires = some e ∧ ¬ e < now ∧ u.reset_code = code)
    ∧ verify_reset_code now code (clear_reset_code u) = false := by
  constructor
  · rw [verify_reset_code]
    by_cases hc : u.reset_code = []
    · simp [hc]
    · cases he : u.reset_code_expires with
      | none => simp [hc, he]
      | some e =>
        by_cases hlt : e < now
        · simp [hc, he, hlt]
        · simp [hc, he, hlt]
          exact fun _ => Nat.le_of_not_lt hlt
  · rw [verify_reset_code, clear_reset_code]
    simp

/-- Witness for C6 at the account holding code 483921 with expiry 30. -/
theorem verify_reset_code_spec_witness :
    (verify_reset_code 10 (lc "483921") uCode = true ↔
      uCode.reset_code ≠ []
      ∧ ∃ e, uCode.reset_code_expires = some e ∧ ¬ e < 10 ∧ uCode.reset_code = lc "483921")
    ∧ verify_reset_code 10 (lc "483921") (clear_reset_code uCode) = false :=
  verify_reset_code_spec uCode 10 (lc "483921")

/-- C9: a generic 404 response is rewritten to the
`{"error":"not_found","message":"Ressource introuvable"}` envelope, and a 400
response whose body already carries the `{"error": ...}` envelope shape is
returned unchanged. -/
theorem exception_handler_spec (exc : Exc) (r : Response) :
    (r.status = 404 →
      custom_exception_handler exc (some r) = some { r with data := notFoundData })
    ∧ (r.status = 400 → dictHasErrorKey r.data = true →
      custom_exception_handler exc (some r) = some r) := by
  constructor
  · intro h404
    rw [custom_exception_handler]
    simp [responseIsValidationError, h404]
  · intro h400 _
    rw [custom_exception_handler]
    simp [responseIsValidationError, h400]

/-- Witness for C9 at a concrete 404 response and a concrete pre-shaped 400
response. -/
theorem exception_handler_spec_witness :
    custom_exception_handler exc0 (some r404) = some { r404 with data := notFoundData }
    ∧ custom_exception_handler exc0 (some r400) = some r400 :=
  ⟨(exception_handler_spec exc0 r404).1 rfl,
   (exception_handler_spec exc0 r400).2 rfl rfl⟩

/-- The rendering of a number does not depend on the fuel, as long as the fuel
majorizes the number. -/
theorem natCharsFuel_eq (f : Nat) :
    ∀ (g n : Nat), n < f → n < g → natCharsFuel f n = natCharsFuel g n := by
  induction f with
  | zero => intro g n hf _; omega
  | succ f ih =>
    intro g n hf hg
    cases g with
    | zero => omega
    | succ g =>
      simp only [natCharsFuel]
      by_cases h : n < 10
      · simp [h]
      · have hdiv : n / 10 < n := Nat.div_lt_self (by omega) (by omega)
        rw [if_neg h, if_neg h, ih g (n / 10) (by omega) (by omega)]

/-- The recursion equation of `natChars` itself. -/
theorem natChars_unfold (n : Nat) :
    natChars n = if n < 10 then [digitChar n] else natChars (n / 10) ++ [digitChar (n % 10)] := by
  by_cases h : n < 10
  · simp [natChars, natCharsFuel, h]
  · have hdiv : n / 10 < n := Nat.div_lt_self (by omega) (by omega)
    rw [if_neg h]
    have hl : natChars n = natCharsFuel n (n / 10) ++ [digitChar (n % 10)] := by
      rw [natChars]
      simp only [natCharsFuel]
      rw [if_neg h]
    rw [hl]
    congr 1
    rw [natChars]
    exact natCharsFuel_eq n (n / 10 + 1) (n / 10) (by omega) (by omega)

/-- Digits below 10 render as ASCII digit characters. -/
theorem digitChar_isDigit (d : Nat) (h : d < 10) : (digitChar d).isDigit = true := by
  interval_cases d <;> decide

/-- A nonzero digit does not render as the character 0. -/
theorem digitChar_ne_zero (d : Nat) (h1 : 1 ≤ d) (h2 : d < 10) : digitChar d ≠ '0' := by
  interval_cases d <;> decide

/-- Every character of a rendered number is an ASCII digit. -/
theorem natChars_all_digit : ∀ n, ∀ c ∈ natChars n, c.isDigit = true := by
  intro n
  induction n using Nat.strong_induction_on with
  | _ n ih =>
    rw [natChars_unfold]
    by_cases h : n < 10
    · rw [if_pos h]
      intro c hc
      simp only [List.mem_singleton] at hc
      subst hc
      exact digitChar_isDigit n h
    · rw [if_neg h]
      intro c hc
      rcases List.mem_append.mp hc with hc | hc
      · exact ih (n / 10) (Nat.div_lt_self (by omega) (by omega)) c hc
      · simp only [List.mem_singleton] at hc
        subst hc
        exact digitChar_isDigit (n % 10) (Nat.mod_lt _ (by omega))

/-- A rendered number is never the empty string. -/
theorem natChars_ne_nil (n : Nat) : natChars n ≠ [] := by
  rw [natChars_unfold]
  by_cases h : n < 10
  · simp [h]
  · simp [h]

/-- A number in the interval from ten to the k-th power up to (exclusive) ten
to the k+1-st power renders with exactly k+1 digits. -/
theorem natChars_length_pow (k : Nat) :
    ∀ n, 10 ^ k ≤ n → n < 10 ^ (k + 1) → (natChars n).length = k + 1 := by
  induction k with
  | zero =>
    intro n h1 h2
    rw [natChars_unfold, if_pos (by simpa using h2)]
    rfl
  | succ k ih =>
    intro n h1 h2
    have hten : (10 : Nat) ≤ 10 ^ (k + 1) := by
      calc (10 : Nat) = 10 ^ 1 := by norm_num
      _ ≤ 10 ^ (k + 1) := Nat.pow_le_pow_right (by omega) (by omega)
    have h10 : ¬ n < 10 := by omega
    rw [natChars_unfold, if_neg h10, List.length_append]
    have hb1 : 10 ^ k ≤ n / 10 := by
      rw [Nat.le_div_iff_mul_le (by omega)]
      calc 10 ^ k * 10 = 10 ^ (k + 1) := by rw [pow_succ]
      _ ≤ n := h1
    have hb2 : n / 10 < 10 ^ (k + 1) := by
      rw [Nat.div_lt_iff_lt_mul (by omega)]
      calc n < 10 ^ (k + 1 + 1) := h2
      _ = 10 ^ (k + 1) * 10 := by rw [pow_succ]
    rw [ih (n / 10) hb1 hb2]
    rfl

/-- The leading character of a rendered positive number is never 0. -/
theorem natChars_head_ne_zero : ∀ n, 1 ≤ n → (natChars n).head? ≠ some '0' := by
  intro n
  induction n using Nat.strong_induction_on with
  | _ n ih =>
    intro h
    rw [natChars_unfold]
    by_cases h10 : n < 10
    · rw [if_pos h10]
      simpa using digitChar_ne_zero n h h10
    · rw [if_neg h10]
      cases hc : natChars (n / 10) with
      | nil => exact absurd hc (natChars_ne_nil _)
      | cons a t =>
        have := ih (n / 10) (Nat.div_lt_self (by omega) (by omega))
          (by have := Nat.div_le_div_right (c := 10) (Nat.le_of_not_lt h10); omega)
        rw [hc] at this
        simpa using this

/-- C10: every generated reset code renders a number drawn from the inclusive
interval 100000 to 999999: six ASCII digits with a nonzero leading digit, so
codes with a leading zero are never issued. -/
theorem generate_reset_code_spec (r : Nat) :
    100000 ≤ randint 100000 999999 r
    ∧ randint 100000 999999 r ≤ 999999
    ∧ generate_reset_code r = natChars (randint 100000 999999 r)
    ∧ (generate_reset_code r).length = 6
    ∧ (∀ c ∈ generate_reset_code r, c.isDigit = true)
    ∧ (generate_reset_code r).head? ≠ some '0' := by
  have hb : r % 900000 < 900000 := Nat.mod_lt _ (by omega)
  have h1 : 100000 ≤ randint 100000 999999 r := by
    rw [randint]; omega
  have h2 : randint 100000 999999 r ≤ 999999 := by
    rw [randint]; omega
  refine ⟨h1, h2, rfl, ?_, natChars_all_digit _, natChars_head_ne_zero _ (by omega)⟩
  have := natChars_length_pow 5 (randint 100000 999999 r) (by norm_num; omega) (by norm_num; omega)
  simpa using this

/-- Characters surviving the cleaning step satisfy the kept-character test. -/
theorem mem_cleanedOf {c : Char} {s : List Char} (h : c ∈ cleanedOf s) :
    keepChar c = true :=
  (List.mem_filter.mp h).2

/-- Cleaning a string of kept characters changes nothing. -/
theorem cleanedOf_eq_self {s : List Char} (h : ∀ c ∈ s, keepChar c = true) :
    cleanedOf s = s :=
  List.filter_eq_self.mpr h

/-- Cleaning commutes with a leading plus, which is a kept character. -/
theorem cleanedOf_cons_plus (s : List Char) :
    cleanedOf ('+' :: s) = '+' :: cleanedOf s := by
  simp [cleanedOf, List.filter_cons]
  decide

/-- Dropping a leading plus only discards characters. -/
theorem mem_stripPlus {c : Char} {l : List Char} (h : c ∈ stripPlus l) : c ∈ l := by
  rw [stripPlus] at h
  split at h
  · exact List.mem_of_mem_tail h
  · exact h

/-- Dropping the leading plus of a plus-headed list. -/
theorem stripPlus_cons_plus (l : List Char) : stripPlus ('+' :: l) = l := by
  rw [stripPlus]
  simp

/-- The digit characters 2, 3, 7 survive the cleaning step. -/
theorem keep_lc237 : ∀ c ∈ lc "237", keepChar c = true := by decide

/-- How `normalize_phone` behaves on a plus-headed string of kept characters:
the cleaning step keeps everything, the leading plus is dropped, and the four
branches are decided on the remainder; the fallback returns the input, which
is exactly the plus put back. -/
theorem normalize_plus_cons (l : List Char) (hk : ∀ c ∈ l, keepChar c = true) :
    normalize_phone ('+' :: l) =
      if (lc "237").isPrefixOf l && l.length == 12 then '+' :: l
      else if l.length == 9 && (lc "6").isPrefixOf l then lc "+237" ++ l
      else if l.length == 12 && (lc "237").isPrefixOf l then '+' :: l
      else '+' :: l := by
  have h1 : ('+' :: l : List Char) ≠ [] := by simp
  rw [normalize_phone, if_neg h1]
  simp only [cleanedOf_cons_plus, cleanedOf_eq_self hk, stripPlus_cons_plus]
  split
  · rfl
  · split
    · rfl
    · split
      · rfl
      · exact ite_self _

/-- C8: the phone normalizer is idempotent on every input string. -/
theorem normalize_phone_idempotent (s : List Char) :
    normalize_phone (normalize_phone s) = normalize_phone s := by
  by_cases hs : s = []
  · subst hs
    rfl
  · have hk : ∀ c ∈ stripPlus (cleanedOf s), keepChar c = true :=
      fun c hc => mem_cleanedOf (mem_stripPlus hc)
    have hunf : normalize_phone s =
        if (lc "237").isPrefixOf (stripPlus (cleanedOf s))
            && (stripPlus (cleanedOf s)).length == 12 then
          '+' :: stripPlus (cleanedOf s)
        else if (stripPlus (cleanedOf s)).length == 9
            && (lc "6").isPrefixOf (stripPlus (cleanedOf s)) then
          lc "+237" ++ stripPlus (cleanedOf s)
        else if (stripPlus (cleanedOf s)).length == 12
            && (lc "237").isPrefixOf (stripPlus (cleanedOf s)) then
          '+' :: stripPlus (cleanedOf s)
        else if (lc "+").isPrefixOf s then s else '+' :: stripPlus (cleanedOf s) := by
      rw [normalize_phone, if_neg hs]
    by_cases hb1 : ((lc "237").isPrefixOf (stripPlus (cleanedOf s))
        && (stripPlus (cleanedOf s)).length == 12) = true
    · have hres : normalize_phone s = '+' :: stripPlus (cleanedOf s) := by
        rw [hunf, if_pos hb1]
      rw [hres, normalize_plus_cons _ hk, if_pos hb1]
    · by_cases hb2 : ((stripPlus (cleanedOf s)).length == 9
          && (lc "6").isPrefixOf (stripPlus (cleanedOf s))) = true
      · have hres : normalize_phone s = lc "+237" ++ stripPlus (cleanedOf s) := by
          rw [hunf, if_neg hb1, if_pos hb2]
        have hk237 : ∀ c ∈ lc "237" ++ stripPlus (cleanedOf s), keepChar c = true := by
          intro c hc
          rcases List.mem_append.mp hc with hc | hc
          · exact keep_lc237 c hc
          · exact hk c hc
        have hlen9 : (stripPlus (cleanedOf s)).length = 9 := by
          rw [Bool.and_eq_true] at hb2
          simpa using hb2.1
        have hshape : lc "+237" ++ stripPlus (cleanedOf s)
            = '+' :: (lc "237" ++ stripPlus (cleanedOf s)) := rfl
        have hcond : ((lc "237").isPrefixOf (lc "237" ++ stripPlus (cleanedOf s))
            && (lc "237" ++ stripPlus (cleanedOf s)).length == 12) = true := by
          rw [Bool.and_eq_true]
          constructor
          · exact List.isPrefixOf_iff_prefix.mpr (List.prefix_append _ _)
          · rw [List.length_append, hlen9]
            decide
        rw [hres, hshape, normalize_plus_cons _ hk237, if_pos hcond]
      · have hb3 : ((stripPlus (cleanedOf s)).length == 12
            && (lc "237").isPrefixOf (stripPlus (cleanedOf s))) = false := by
          rw [Bool.and_comm]
          exact Bool.eq_false_iff.mpr hb1
        by_cases hsp : (lc "+").isPrefixOf s = true
        · have hres : normalize_phone s = s := by
            rw [hunf, if_neg hb1, if_neg hb2, if_neg (by rw [hb3]; exact Bool.false_ne_true),
              if_pos hsp]
          rw [hres]
          exact hres
        · have hres : normalize_phone s = '+' :: stripPlus (cleanedOf s) := by
            rw [hunf, if_neg hb1, if_neg hb2, if_neg (by rw [hb3]; exact Bool.false_ne_true),
              if_neg hsp]
          rw [hres, normalize_plus_cons _ hk, if_neg hb1, if_neg hb2,
            if_neg (by rw [hb3]; exact Bool.false_ne_true)]

/-- C7 counterexample: the input 699+12345 strips (per the claim's reading:
keep digits and a leading plus only) to the 8 digits 69912345, so per the
claim it falls under the best-effort case; but the source regex keeps the
interior plus, leaving a 9-character remainder that starts with 6, so the
code prepends +237 to it.  The output matches neither the claim's best-effort
forms nor the +237 form of the stripped digits. -/
theorem c7_claim_counterexample :
    normalize_phone (lc "699+12345") = lc "+237699+12345"
    ∧ specStripped (lc "699+12345") = lc "69912345"
    ∧ ¬ c7ClaimAt (lc "699+12345") := by
  refine ⟨by decide, by decide, ?_⟩
  rw [c7ClaimAt]
  decide

/-- C7 amended: the cleaning step keeps digits and every plus sign, then
drops one leading plus; branching on the length and first characters of that
remainder as the source does, every input is mapped as follows (and the three
example phone numbers of the claim normalize as stated). -/
theorem normalize_phone_amended (s : List Char) :
    (s = [] → normalize_phone s = [])
    ∧ (s ≠ [] →
        ((lc "237").isPrefixOf (stripPlus (cleanedOf s))
          && (stripPlus (cleanedOf s)).length == 12) = true →
        normalize_phone s = '+' :: stripPlus (cleanedOf s))
    ∧ (s ≠ [] →
        ((stripPlus (cleanedOf s)).length == 9
          && (lc "6").isPrefixOf (stripPlus (cleanedOf s))) = true →
        normalize_phone s = lc "+237" ++ stripPlus (cleanedOf s))
    ∧ (s ≠ [] →
        ((lc "237").isPrefixOf (stripPlus (cleanedOf s))
          && (stripPlus (cleanedOf s)).length == 12) = false →
        ((stripPlus (cleanedOf s)).length == 9
          && (lc "6").isPrefixOf (stripPlus (cleanedOf s))) = false →
        normalize_phone s =
          if (lc "+").isPrefixOf s then s else '+' :: stripPlus (cleanedOf s))
    ∧ normalize_phone (lc "699 123 456") = lc "+237699123456"
    ∧ normalize_phone (lc "+237 699 123 456") = lc "+237699123456"
    ∧ normalize_phone (lc "237699123456") = lc "+237699123456" := by
  refine ⟨?_, ?_, ?_, ?_, by decide, by decide, by decide⟩
  · intro h
    rw [h]
    rfl
  · intro hs hb1
    rw [normalize_phone, if_neg hs, if_pos hb1]
  · intro hs hb2
    by_cases hb1 : ((lc "237").isPrefixOf (stripPlus (cleanedOf s))
        && (stripPlus (cleanedOf s)).length == 12) = true
    · rw [Bool.and_eq_true] at hb1 hb2
      have h9 : (stripPlus (cleanedOf s)).length = 9 := by simpa using hb2.1
      have h12 : (stripPlus (cleanedOf s)).length = 12 := by simpa using hb1.2
      omega
    · rw [normalize_phone, if_neg hs, if_neg hb1, if_pos hb2]
  · intro hs hb1 hb2
    have hb3 : ((stripPlus (cleanedOf s)).length == 12
        && (lc "237").isPrefixOf (stripPlus (cleanedOf s))) = false := by
      rw [Bool.and_comm]
      exact hb1
    rw [normalize_phone, if_neg hs, if_neg (by rw [hb1]; exact Bool.false_ne_true),
      if_neg (by rw [hb2]; exact Bool.false_ne_true),
      if_neg (by rw [hb3]; exact Bool.false_ne_true)]

/-- Witness for the amended C7 theorem: a bare 9-digit local number gains the
country code. -/
theorem normalize_phone_amended_witness :
    normalize_phone (lc "699123456") = lc "+237699123456" :=
  (normalize_phone_amended (lc "699123456")).2.2.1 (by decide) (by decide)
